import Mathlib

/-!
Shallow embedding of the local-first persistence and synchronization core of
the resilience-toolkit web app: the IndexedDB-backed local store
(`src/lib/storage.ts`), the background sync batch (`src/lib/sync.ts` together
with the remote upsert helpers of `src/lib/supabase.ts`), and the UI call
sites relevant to the verified claims (`EditableTable.tsx`, the Todo note
component).

Modelling conventions:
* An IndexedDB object store is an association list keyed by the record `id`
  field; `db.put` upserts in place (replacing the entry with the same key or
  appending), `db.get` finds by key, `db.getAll` enumerates the entries.
* A JavaScript optional property is an `Option` value; `none` means the
  property is absent from the stored object (`undefined`).
* Every read of `new Date().toISOString()` is modelled by an explicit `now`
  parameter supplied to the embedded operation.
* `Record<string, any>` cell data is modelled as an association list from
  column names to opaque string values.
* The remote store and the network are modelled by oracles deciding, per
  record, whether its upsert succeeds, plus a log of the attempted remote
  calls; thrown per-record errors are the oracle's error strings.
-/

namespace Resilience

/-- A stored todo record (`todos` object store of `storage.ts`). -/
structure Todo where
  id : String
  moduleKey : String
  todoId : String
  completed : Bool
  completedAt : Option String
  notes : Option String
  syncedAt : Option String
deriving Repr, DecidableEq

/-- Argument of `saveTodo` (`Omit<Todo, 'id'>`): the record minus the derived
`id`, which `saveTodo` recomputes from `moduleKey` and `todoId`. -/
structure TodoInput where
  moduleKey : String
  todoId : String
  completed : Bool
  completedAt : Option String
  notes : Option String
  syncedAt : Option String
deriving Repr, DecidableEq

/-- A stored editable-table row (`tables` object store of `storage.ts`). -/
structure TableRow where
  id : String
  moduleKey : String
  tableId : String
  rowId : String
  data : List (String × String)
  updatedAt : String
  syncedAt : Option String
deriving Repr, DecidableEq

/-- Argument of `saveTableRow` (`Omit<TableRow, 'id' | 'updatedAt'>`): the
row minus the derived `id` and the `updatedAt` stamp, both recomputed by
`saveTableRow`. -/
structure TableRowInput where
  moduleKey : String
  tableId : String
  rowId : String
  data : List (String × String)
  syncedAt : Option String
deriving Repr, DecidableEq

/-- The local database: the two record-bearing object stores (the `metadata`
store is not involved in any verified claim). -/
structure DB where
  todos : List Todo
  tables : List TableRow
deriving Repr, DecidableEq

/-- The empty database (state after the first `getDB` upgrade callback). -/
def DB.empty : DB := ⟨[], []⟩

/-- IndexedDB `put` on an object store with key extractor `key`: replace the
entry whose key equals the new record's key, or append if no entry has it. -/
def storePut {α : Type} (key : α → String) : List α → α → List α
  | [], t => [t]
  | u :: us, t => if key u = key t then t :: us else u :: storePut key us t

/-- IndexedDB `get` on an object store: the entry with the given key. -/
def storeFind {α : Type} (key : α → String) : List α → String → Option α
  | [], _ => none
  | u :: us, k => if key u = k then some u else storeFind key us k

/-- IndexedDB `put` on the todos store (keyed by the record `id`). -/
def putTodoList (l : List Todo) (t : Todo) : List Todo :=
  storePut (fun u => u.id) l t

/-- IndexedDB `get` on the todos store. -/
def findTodo (l : List Todo) (k : String) : Option Todo :=
  storeFind (fun u => u.id) l k

/-- IndexedDB `put` on the tables store (keyed by the record `id`). -/
def putRowList (l : List TableRow) (r : TableRow) : List TableRow :=
  storePut (fun u => u.id) l r

/-- IndexedDB `get` on the tables store. -/
def findRow (l : List TableRow) (k : String) : Option TableRow :=
  storeFind (fun u => u.id) l k

/-- Composite todo key: `${moduleKey}-${todoId}` (`storage.ts`). -/
def todoKey (moduleKey todoId : String) : String :=
  moduleKey ++ "-" ++ todoId

/-- Composite table-row key: `${moduleKey}-${tableId}-${rowId}`. -/
def tableKey (moduleKey tableId rowId : String) : String :=
  moduleKey ++ "-" ++ tableId ++ "-" ++ rowId

/-- `getTodo(moduleKey, todoId)` of `storage.ts`. -/
def getTodo (db : DB) (moduleKey todoId : String) : Option Todo :=
  findTodo db.todos (todoKey moduleKey todoId)

/-- `saveTodo(todo)` of `storage.ts`: derive `id` and `put` the record. -/
def saveTodo (db : DB) (todo : TodoInput) : DB :=
  { db with
    todos := putTodoList db.todos
      { id := todoKey todo.moduleKey todo.todoId
        moduleKey := todo.moduleKey
        todoId := todo.todoId
        completed := todo.completed
        completedAt := todo.completedAt
        notes := todo.notes
        syncedAt := todo.syncedAt } }

/-- `toggleTodo(moduleKey, todoId)` of `storage.ts`: read the record, flip
`!todo?.completed`, save with `completedAt` set exactly when the new flag is
true, carrying `todo?.notes` through and passing no `syncedAt` property. -/
def toggleTodo (db : DB) (now moduleKey todoId : String) : DB × Bool :=
  let todo := getTodo db moduleKey todoId
  let completed := !((todo.map (fun t => t.completed)).getD false)
  (saveTodo db
    { moduleKey := moduleKey
      todoId := todoId
      completed := completed
      completedAt := if completed then some now else none
      notes := todo.bind (fun t => t.notes)
      syncedAt := none }, completed)

/-- `getTableRow(moduleKey, tableId, rowId)` of `storage.ts`. -/
def getTableRow (db : DB) (moduleKey tableId rowId : String) : Option TableRow :=
  findRow db.tables (tableKey moduleKey tableId rowId)

/-- `saveTableRow(row)` of `storage.ts`: derive `id`, stamp `updatedAt` with
the current time, and `put` the record; the caller-supplied `syncedAt`
passes through the spread unchanged. -/
def saveTableRow (db : DB) (now : String) (row : TableRowInput) : DB :=
  { db with
    tables := putRowList db.tables
      { id := tableKey row.moduleKey row.tableId row.rowId
        moduleKey := row.moduleKey
        tableId := row.tableId
        rowId := row.rowId
        data := row.data
        updatedAt := now
        syncedAt := row.syncedAt } }

/-- `getUnsyncedTodos()` of `storage.ts`: all todos with no `syncedAt`. -/
def getUnsyncedTodos (db : DB) : List Todo :=
  db.todos.filter (fun t => t.syncedAt.isNone)

/-- `getUnsyncedTableRows()` of `storage.ts`. -/
def getUnsyncedTableRows (db : DB) : List TableRow :=
  db.tables.filter (fun r => r.syncedAt.isNone)

/-- `markTodoSynced(moduleKey, todoId)` of `storage.ts`: read the record and,
when present, save it back with `syncedAt` stamped. -/
def markTodoSynced (db : DB) (now moduleKey todoId : String) : DB :=
  match getTodo db moduleKey todoId with
  | none => db
  | some todo =>
      saveTodo db
        { moduleKey := todo.moduleKey
          todoId := todo.todoId
          completed := todo.completed
          completedAt := todo.completedAt
          notes := todo.notes
          syncedAt := some now }

/-- `markTableRowSynced(moduleKey, tableId, rowId)` of `storage.ts`: read the
row and, when present, save it back through `saveTableRow` with `syncedAt`
stamped (so `saveTableRow` also refreshes `updatedAt`). -/
def markTableRowSynced (db : DB) (now moduleKey tableId rowId : String) : DB :=
  match getTableRow db moduleKey tableId rowId with
  | none => db
  | some row =>
      saveTableRow db now
        { moduleKey := row.moduleKey
          tableId := row.tableId
          rowId := row.rowId
          data := row.data
          syncedAt := some now }

/-- Element of the `updates` argument of `batchUpdateChecklistItems`. -/
structure ChecklistUpdate where
  moduleKey : String
  todoId : String
  completed : Bool
deriving Repr, DecidableEq

/-- `batchUpdateChecklistItems(updates)` of `storage.ts`: for each update,
`saveTodo` with only identity, `completed`, and a `completedAt` computed from
`completed`; `notes` and `syncedAt` are not passed (so they end up absent). -/
def batchUpdateChecklistItems (now : String) : DB → List ChecklistUpdate → DB
  | db, [] => db
  | db, u :: us =>
      batchUpdateChecklistItems now
        (saveTodo db
          { moduleKey := u.moduleKey
            todoId := u.todoId
            completed := u.completed
            completedAt := if u.completed then some now else none
            notes := none
            syncedAt := none }) us

/-- Modelled from the spec: `updateTodoNote` is imported from the storage
module by the Todo note component (`import { getTodo, toggleTodo,
updateTodoNote } from '@/lib/storage'`) but its definition is missing from
the repository snapshot's `storage.ts`. Per the spec's store contract,
update-note preserves completion state, overwrites the note, and normalizes
an empty-string note to absent; like the other mutating save paths it passes
no `syncedAt` property. -/
def updateTodoNote (db : DB) (moduleKey todoId note : String) : DB :=
  let todo := getTodo db moduleKey todoId
  saveTodo db
    { moduleKey := moduleKey
      todoId := todoId
      completed := (todo.map (fun t => t.completed)).getD false
      completedAt := todo.bind (fun t => t.completedAt)
      notes := if note = "" then none else some note
      syncedAt := none }

/-- Digit run to a number, as `parseInt` does on an all-digit string. -/
def digitsToNat (ds : List Char) : Nat :=
  ds.foldl (fun n c => 10 * n + (c.toNat - 48)) 0

/-- `isInitialRow(rowId)` of `EditableTable.tsx`: the row id matches
`^row-(\d+)$` and the number is below the 1000 threshold. -/
def isInitialRow (rowId : String) : Bool :=
  match rowId.data with
  | 'r' :: 'o' :: 'w' :: '-' :: ds =>
      !ds.isEmpty && ds.all (fun c => c.isDigit) && decide (digitsToNat ds < 1000)
  | _ => false

/-- JavaScript object spread `{ ...data, [column]: value }`: overwrite the
column in place or append it. -/
def setCell : List (String × String) → String → String → List (String × String)
  | [], column, value => [(column, value)]
  | (c, v) :: rest, column, value =>
      if c = column then (c, value) :: rest
      else (c, v) :: setCell rest column value

/-- `handleCellChange(rowId, column, value)` of `EditableTable.tsx`: look the
row up (the component reads it from its React state, which mirrors the
store's rows for this table — modelled as a store read), return early when
the guard against editing the first column of a pre-populated row fires, and
otherwise save the row with one cell overwritten, spreading every other
field — including `syncedAt` — through unchanged. -/
def handleCellChange (db : DB) (now : String) (columns : List String)
    (moduleKey tableId rowId column value : String) : DB :=
  match getTableRow db moduleKey tableId rowId with
  | none => db
  | some row =>
      if isInitialRow rowId && columns.head? == some column then db
      else
        saveTableRow db now
          { moduleKey := row.moduleKey
            tableId := row.tableId
            rowId := row.rowId
            data := setCell row.data column value
            syncedAt := row.syncedAt }

/-- The ambient inputs `syncAll` consults before doing any record work:
`isSupabaseConfigured()`, the module-level `currentHubId`, and
`getCurrentUser()`. -/
structure SyncEnv where
  supabaseConfigured : Bool
  currentHubId : Option String
  currentUser : Option String
deriving Repr, DecidableEq

/-- An attempted remote upsert (`syncTodo` / `syncTableRow` of
`supabase.ts`), with the workspace and identity attribution it carries. -/
inductive RemoteCall where
  | upsertTodo (hubId userId moduleKey todoId : String)
      (completed : Bool) (notes : Option String)
  | upsertTableRow (hubId userId moduleKey tableId rowId : String)
      (data : List (String × String))
deriving Repr, DecidableEq

/-- The value `syncAll` resolves with. -/
structure SyncResult where
  todosSynced : Nat
  tablesSynced : Nat
  errors : List String
deriving Repr, DecidableEq

/-- Full observable outcome of one `syncAll` invocation: the local store
afterwards, the resolved result, the remote upserts attempted, and how many
list-unsynced fetches were performed. -/
structure SyncOutcome where
  db : DB
  result : SyncResult
  remoteCalls : List RemoteCall
  unsyncedFetches : Nat
deriving Repr, DecidableEq

/-- Accumulator of one per-record sync loop. -/
structure LoopOut where
  db : DB
  count : Nat
  errors : List String
  calls : List RemoteCall
deriving Repr, DecidableEq

/-- The `notes || null` coercion `syncTodo` applies to its payload. -/
def coerceNotes : Option String → Option String
  | none => none
  | some s => if s = "" then none else some s

/-- The todo loop of `syncAll`: for each fetched record attempt the remote
upsert; on success mark that record synced and count it, on failure push the
thrown error and continue with the next record. The oracle `okT` decides
whether the upsert for a record succeeds; `errT` is the error it throws. -/
def syncTodosLoop (okT : Todo → Bool) (errT : Todo → String)
    (hub user now : String) : DB → List Todo → LoopOut
  | db, [] => ⟨db, 0, [], []⟩
  | db, t :: ts =>
      let call := RemoteCall.upsertTodo hub user t.moduleKey t.todoId
        t.completed (coerceNotes t.notes)
      if okT t then
        let rest := syncTodosLoop okT errT hub user now
          (markTodoSynced db now t.moduleKey t.todoId) ts
        ⟨rest.db, rest.count + 1, rest.errors, call :: rest.calls⟩
      else
        let rest := syncTodosLoop okT errT hub user now db ts
        ⟨rest.db, rest.count, errT t :: rest.errors, call :: rest.calls⟩

/-- The table-row loop of `syncAll`, mirroring `syncTodosLoop`. -/
def syncRowsLoop (okR : TableRow → Bool) (errR : TableRow → String)
    (hub user now : String) : DB → List TableRow → LoopOut
  | db, [] => ⟨db, 0, [], []⟩
  | db, r :: rs =>
      let call := RemoteCall.upsertTableRow hub user r.moduleKey r.tableId
        r.rowId r.data
      if okR r then
        let rest := syncRowsLoop okR errR hub user now
          (markTableRowSynced db now r.moduleKey r.tableId r.rowId) rs
        ⟨rest.db, rest.count + 1, rest.errors, call :: rest.calls⟩
      else
        let rest := syncRowsLoop okR errR hub user now db rs
        ⟨rest.db, rest.count, errR r :: rest.errors, call :: rest.calls⟩

/-- `syncAll()` of `sync.ts`: precondition checks (remote configured, hub
selected, identity resolved) each return immediately with zero counts and,
for the two latter cases, a single descriptive error; otherwise fetch the
unsynced todos, drain them, fetch the unsynced rows, drain them, and resolve
with the counts and the accumulated errors. The function always resolves —
per-record errors are caught and collected, never rethrown. -/
def syncAll (env : SyncEnv) (now : String)
    (okT : Todo → Bool) (errT : Todo → String)
    (okR : TableRow → Bool) (errR : TableRow → String)
    (db : DB) : SyncOutcome :=
  if !env.supabaseConfigured then ⟨db, ⟨0, 0, []⟩, [], 0⟩
  else
    match env.currentHubId with
    | none => ⟨db, ⟨0, 0, ["No hub selected"]⟩, [], 0⟩
    | some hub =>
        match env.currentUser with
        | none => ⟨db, ⟨0, 0, ["Not authenticated"]⟩, [], 0⟩
        | some user =>
            let t := syncTodosLoop okT errT hub user now db (getUnsyncedTodos db)
            let r := syncRowsLoop okR errR hub user now t.db
              (getUnsyncedTableRows t.db)
            ⟨r.db, ⟨t.count, r.count, t.errors ++ r.errors⟩,
              t.calls ++ r.calls, 2⟩

/-- Program counter of one `getDB()` caller: about to run the null check,
suspended on `await openDB(...)` holding its fresh connection, or returned
with a connection. -/
inductive CallerPC where
  | start
  | awaiting (conn : Nat)
  | done (conn : Nat)
deriving Repr, DecidableEq

/-- Interleaving state of two concurrent `getDB()` callers over the
module-level `dbInstance` variable. `opens` counts `openDB` calls;
connection instances are numbered by the order their opens started. -/
structure GetDBState where
  dbInstance : Option Nat
  opens : Nat
  a : CallerPC
  b : CallerPC
deriving Repr, DecidableEq

/-- One scheduler step of a single `getDB()` caller. From `start`, the null
check and the `openDB` call run in the same synchronous slice: if
`dbInstance` is set the caller returns it, otherwise it starts a fresh open
and suspends at the `await`. From `awaiting`, the open resolves: only now is
`dbInstance` assigned, and the caller returns its own connection. -/
def stepCaller (dbInstance : Option Nat) (opens : Nat) :
    CallerPC → Option Nat × Nat × CallerPC
  | .start =>
      match dbInstance with
      | some c => (some c, opens, .done c)
      | none => (none, opens + 1, .awaiting opens)
  | .awaiting c => (some c, opens, .done c)
  | .done c => (dbInstance, opens, .done c)

/-- Run caller A for one step. -/
def stepA (s : GetDBState) : GetDBState :=
  let (i, o, pc) := stepCaller s.dbInstance s.opens s.a
  ⟨i, o, pc, s.b⟩

/-- Run caller B for one step. -/
def stepB (s : GetDBState) : GetDBState :=
  let (i, o, pc) := stepCaller s.dbInstance s.opens s.b
  ⟨i, o, s.a, pc⟩

/-- Run a schedule (`true` = step caller A, `false` = step caller B). -/
def runSchedule : GetDBState → List Bool → GetDBState
  | s, [] => s
  | s, w :: ws => runSchedule (if w then stepA s else stepB s) ws

/-- Fresh process: `dbInstance` null, no opens, both callers about to run. -/
def initGetDB : GetDBState := ⟨none, 0, .start, .start⟩

/-- The record `saveTodo` actually stores for a given input. -/
def TodoInput.toRecord (i : TodoInput) : Todo :=
  { id := todoKey i.moduleKey i.todoId
    moduleKey := i.moduleKey
    todoId := i.todoId
    completed := i.completed
    completedAt := i.completedAt
    notes := i.notes
    syncedAt := i.syncedAt }

/-- The record `saveTableRow` actually stores for a given input and time. -/
def TableRowInput.toRecord (i : TableRowInput) (now : String) : TableRow :=
  { id := tableKey i.moduleKey i.tableId i.rowId
    moduleKey := i.moduleKey
    tableId := i.tableId
    rowId := i.rowId
    data := i.data
    updatedAt := now
    syncedAt := i.syncedAt }

/-- Store well-formedness, maintained by every write path: record ids are
pairwise distinct and each record's id is the composite key derived from its
own identity fields. -/
def todosWF (l : List Todo) : Prop :=
  (l.map (fun t => t.id)).Nodup ∧ ∀ t ∈ l, t.id = todoKey t.moduleKey t.todoId

/-- Well-formedness of the tables store. -/
def rowsWF (l : List TableRow) : Prop :=
  (l.map (fun r => r.id)).Nodup ∧
    ∀ r ∈ l, r.id = tableKey r.moduleKey r.tableId r.rowId

/-- Well-formedness of the whole local database. -/
def DB.WF (db : DB) : Prop := todosWF db.todos ∧ rowsWF db.tables

instance (l : List Todo) : Decidable (todosWF l) := by
  unfold todosWF; infer_instance

instance (l : List TableRow) : Decidable (rowsWF l) := by
  unfold rowsWF; infer_instance

instance (db : DB) : Decidable db.WF := by
  unfold DB.WF; infer_instance

theorem storeFind_storePut_self {α : Type} (key : α → String)
    (l : List α) (t : α) : storeFind key (storePut key l t) (key t) = some t := by
  induction l with
  | nil => simp [storePut, storeFind]
  | cons u us ih =>
      by_cases h : key u = key t
      · simp [storePut, h, storeFind]
      · simp [storePut, h, storeFind, ih]

theorem storeFind_storePut_ne {α : Type} (key : α → String)
    (l : List α) (t : α) (k : String) (h : k ≠ key t) :
    storeFind key (storePut key l t) k = storeFind key l k := by
  induction l with
  | nil => simp [storePut, storeFind, Ne.symm h]
  | cons u us ih =>
      by_cases hu : key u = key t
      · have h1 : key t ≠ k := Ne.symm h
        have h2 : key u ≠ k := by rw [hu]; exact h1
        simp [storePut, hu, storeFind, h1, h2]
      · simp only [storePut, if_neg hu]
        by_cases hk : key u = k
        · simp [storeFind, hk]
        · simp [storeFind, hk, ih]

theorem storeFind_mem {α : Type} {key : α → String}
    {l : List α} {k : String} {t : α} (h : storeFind key l k = some t) :
    t ∈ l ∧ key t = k := by
  induction l with
  | nil => simp [storeFind] at h
  | cons u us ih =>
      by_cases hu : key u = k
      · simp only [storeFind, hu, if_pos rfl] at h
        have : u = t := by simpa using h
        subst this
        exact ⟨List.mem_cons_self _ _, hu⟩
      · simp only [storeFind, hu, if_neg hu] at h
        obtain ⟨hm, hk⟩ := ih h
        exact ⟨List.mem_cons_of_mem _ hm, hk⟩

theorem self_mem_storePut {α : Type} (key : α → String) (l : List α) (t : α) :
    t ∈ storePut key l t := by
  induction l with
  | nil => simp [storePut]
  | cons u us ih => by_cases h : key u = key t <;> simp [storePut, h, ih]

theorem mem_storePut {α : Type} {key : α → String} {l : List α} {t u : α}
    (h : u ∈ storePut key l t) : u ∈ l ∨ u = t := by
  induction l with
  | nil =>
      simp [storePut] at h
      exact Or.inr h
  | cons v vs ih =>
      by_cases hv : key v = key t
      · simp only [storePut, if_pos hv, List.mem_cons] at h
        rcases h with h | h
        · exact Or.inr h
        · exact Or.inl (List.mem_cons_of_mem _ h)
      · simp only [storePut, if_neg hv, List.mem_cons] at h
        rcases h with h | h
        · exact Or.inl (by simp [h])
        · rcases ih h with h' | h'
          · exact Or.inl (List.mem_cons_of_mem _ h')
          · exact Or.inr h'

theorem mem_keys_storePut {α : Type} {key : α → String} {l : List α} {t : α}
    {k : String} (h : k ∈ (storePut key l t).map key) :
    k = key t ∨ k ∈ l.map key := by
  simp only [List.mem_map] at h ⊢
  obtain ⟨u, hu, rfl⟩ := h
  rcases mem_storePut hu with h' | h'
  · exact Or.inr ⟨u, h', rfl⟩
  · exact Or.inl (by rw [h'])

theorem nodup_keys_storePut {α : Type} {key : α → String} {l : List α} (t : α)
    (h : (l.map key).Nodup) : ((storePut key l t).map key).Nodup := by
  induction l with
  | nil => simp [storePut]
  | cons u us ih =>
      simp only [List.map_cons, List.nodup_cons] at h
      by_cases hu : key u = key t
      · simp only [storePut, if_pos hu, List.map_cons, List.nodup_cons]
        refine ⟨fun hmem => h.1 ?_, h.2⟩
        rw [hu]
        exact hmem
      · simp only [storePut, if_neg hu, List.map_cons, List.nodup_cons]
        refine ⟨fun hmem => ?_, ih h.2⟩
        rcases mem_keys_storePut hmem with h' | h'
        · exact hu h'
        · exact h.1 h'

theorem mem_storeFind {α : Type} {key : α → String} {l : List α} {t : α}
    (hnd : (l.map key).Nodup) (ht : t ∈ l) : storeFind key l (key t) = some t := by
  induction l with
  | nil => simp at ht
  | cons u us ih =>
      simp only [List.map_cons, List.nodup_cons] at hnd
      rcases List.mem_cons.mp ht with h | h
      · subst h
        simp [storeFind]
      · by_cases hu : key u = key t
        · exfalso
          apply hnd.1
          rw [hu]
          exact List.mem_map_of_mem key h
        · simp [storeFind, hu, ih hnd.2 h]

theorem saveTodo_todos (db : DB) (i : TodoInput) :
    (saveTodo db i).todos = storePut (fun u => u.id) db.todos i.toRecord := rfl

theorem saveTodo_tables (db : DB) (i : TodoInput) :
    (saveTodo db i).tables = db.tables := rfl

theorem saveTableRow_tables (db : DB) (now : String) (i : TableRowInput) :
    (saveTableRow db now i).tables =
      storePut (fun u => u.id) db.tables (i.toRecord now) := rfl

theorem saveTableRow_todos (db : DB) (now : String) (i : TableRowInput) :
    (saveTableRow db now i).todos = db.todos := rfl

theorem getTodo_saveTodo_eq (db : DB) (i : TodoInput) (mk tid : String)
    (h : todoKey mk tid = todoKey i.moduleKey i.todoId) :
    getTodo (saveTodo db i) mk tid = some i.toRecord := by
  show storeFind (fun u => u.id) (storePut (fun u => u.id) db.todos i.toRecord)
    (todoKey mk tid) = some i.toRecord
  rw [h]
  exact storeFind_storePut_self (fun u => u.id) db.todos i.toRecord

theorem getTodo_saveTodo_self (db : DB) (i : TodoInput) :
    getTodo (saveTodo db i) i.moduleKey i.todoId = some i.toRecord :=
  getTodo_saveTodo_eq db i i.moduleKey i.todoId rfl

theorem getTodo_saveTodo_ne (db : DB) (i : TodoInput) (mk tid : String)
    (h : todoKey mk tid ≠ todoKey i.moduleKey i.todoId) :
    getTodo (saveTodo db i) mk tid = getTodo db mk tid := by
  show storeFind (fun u => u.id) (storePut (fun u => u.id) db.todos i.toRecord)
    (todoKey mk tid) = storeFind (fun u => u.id) db.todos (todoKey mk tid)
  exact storeFind_storePut_ne (fun u => u.id) db.todos i.toRecord (todoKey mk tid) h

theorem getTableRow_saveTableRow_eq (db : DB) (now : String) (i : TableRowInput)
    (mk tb rid : String)
    (h : tableKey mk tb rid = tableKey i.moduleKey i.tableId i.rowId) :
    getTableRow (saveTableRow db now i) mk tb rid = some (i.toRecord now) := by
  show storeFind (fun u => u.id)
    (storePut (fun u => u.id) db.tables (i.toRecord now))
    (tableKey mk tb rid) = some (i.toRecord now)
  rw [h]
  exact storeFind_storePut_self (fun u => u.id) db.tables (i.toRecord now)

theorem getTableRow_saveTableRow_self (db : DB) (now : String) (i : TableRowInput) :
    getTableRow (saveTableRow db now i) i.moduleKey i.tableId i.rowId =
      some (i.toRecord now) :=
  getTableRow_saveTableRow_eq db now i i.moduleKey i.tableId i.rowId rfl

theorem getTableRow_saveTableRow_ne (db : DB) (now : String) (i : TableRowInput)
    (mk tb rid : String)
    (h : tableKey mk tb rid ≠ tableKey i.moduleKey i.tableId i.rowId) :
    getTableRow (saveTableRow db now i) mk tb rid = getTableRow db mk tb rid := by
  show storeFind (fun u => u.id)
    (storePut (fun u => u.id) db.tables (i.toRecord now)) (tableKey mk tb rid) =
    storeFind (fun u => u.id) db.tables (tableKey mk tb rid)
  exact storeFind_storePut_ne (fun u => u.id) db.tables (i.toRecord now)
    (tableKey mk tb rid) h

theorem todosWF_saveTodo {db : DB} (h : todosWF db.todos) (i : TodoInput) :
    todosWF (saveTodo db i).todos := by
  constructor
  · exact nodup_keys_storePut i.toRecord h.1
  · intro t ht
    rcases mem_storePut ht with h' | h'
    · exact h.2 t h'
    · subst h'
      rfl

theorem rowsWF_saveTableRow {db : DB} (h : rowsWF db.tables) (now : String)
    (i : TableRowInput) : rowsWF (saveTableRow db now i).tables := by
  constructor
  · exact nodup_keys_storePut (i.toRecord now) h.1
  · intro r hr
    rcases mem_storePut hr with h' | h'
    · exact h.2 r h'
    · subst h'
      rfl

theorem mem_getUnsyncedTodos {db : DB} {t : Todo} :
    t ∈ getUnsyncedTodos db ↔ t ∈ db.todos ∧ t.syncedAt = none := by
  simp [getUnsyncedTodos, List.mem_filter, Option.isNone_iff_eq_none]

theorem mem_getUnsyncedTableRows {db : DB} {r : TableRow} :
    r ∈ getUnsyncedTableRows db ↔ r ∈ db.tables ∧ r.syncedAt = none := by
  simp [getUnsyncedTableRows, List.mem_filter, Option.isNone_iff_eq_none]

theorem markTodoSynced_get_self {db : DB}
    (hc : ∀ u ∈ db.todos, u.id = todoKey u.moduleKey u.todoId)
    (now mk tid : String) {t : Todo} (ht : getTodo db mk tid = some t) :
    getTodo (markTodoSynced db now mk tid) mk tid =
      some { t with syncedAt := some now } := by
  have hmem := storeFind_mem ht
  have hid : t.id = todoKey t.moduleKey t.todoId := hc t hmem.1
  have hkey : todoKey mk tid = todoKey t.moduleKey t.todoId := by
    rw [← hid]
    exact hmem.2.symm
  simp only [markTodoSynced, ht]
  rw [getTodo_saveTodo_eq db _ mk tid hkey]
  simp [TodoInput.toRecord, hid]

theorem markTableRowSynced_get_self {db : DB}
    (hc : ∀ u ∈ db.tables, u.id = tableKey u.moduleKey u.tableId u.rowId)
    (now mk tb rid : String) {r : TableRow} (hr : getTableRow db mk tb rid = some r) :
    getTableRow (markTableRowSynced db now mk tb rid) mk tb rid =
      some { r with updatedAt := now, syncedAt := some now } := by
  have hmem := storeFind_mem hr
  have hid : r.id = tableKey r.moduleKey r.tableId r.rowId := hc r hmem.1
  have hkey : tableKey mk tb rid = tableKey r.moduleKey r.tableId r.rowId := by
    rw [← hid]
    exact hmem.2.symm
  simp only [markTableRowSynced, hr]
  rw [getTableRow_saveTableRow_eq db now _ mk tb rid hkey]
  simp [TableRowInput.toRecord, hid]

/-- C5: for every `(moduleKey, todoId)`, `toggleTodo` flips the stored
completion flag (an absent record counts as not completed), returns the new
flag value, preserves the existing note, sets the completion timestamp to
the current time exactly when the new flag is true and clears it when false;
two consecutive toggles starting from an absent record leave a record with
`completed = false` and no completion timestamp. -/
theorem toggleTodo_spec (db : DB) (now now2 moduleKey todoId : String) :
    (toggleTodo db now moduleKey todoId).2 =
      !(((getTodo db moduleKey todoId).map (fun t => t.completed)).getD false) ∧
    getTodo (toggleTodo db now moduleKey todoId).1 moduleKey todoId =
      some { id := todoKey moduleKey todoId
             moduleKey := moduleKey
             todoId := todoId
             completed := (toggleTodo db now moduleKey todoId).2
             completedAt :=
               if (toggleTodo db now moduleKey todoId).2 then some now else none
             notes := (getTodo db moduleKey todoId).bind (fun t => t.notes)
             syncedAt := none } ∧
    (getTodo db moduleKey todoId = none →
      getTodo
          (toggleTodo (toggleTodo db now moduleKey todoId).1 now2 moduleKey todoId).1
          moduleKey todoId =
        some { id := todoKey moduleKey todoId
               moduleKey := moduleKey
               todoId := todoId
               completed := false
               completedAt := none
               notes := none
               syncedAt := none }) := by
  refine ⟨rfl, ?_, ?_⟩
  · exact getTodo_saveTodo_self db _
  · intro h
    have e1 : (toggleTodo db now moduleKey todoId).1 =
        saveTodo db
          { moduleKey := moduleKey, todoId := todoId, completed := true,
            completedAt := some now, notes := none, syncedAt := none } := by
      simp [toggleTodo, h]
    rw [e1]
    have e2 := getTodo_saveTodo_self db
      (i := { moduleKey := moduleKey, todoId := todoId, completed := true,
              completedAt := some now, notes := none, syncedAt := none })
    have e3 : (toggleTodo (saveTodo db
        { moduleKey := moduleKey, todoId := todoId, completed := true,
          completedAt := some now, notes := none, syncedAt := none })
        now2 moduleKey todoId).1 =
        saveTodo (saveTodo db
          { moduleKey := moduleKey, todoId := todoId, completed := true,
            completedAt := some now, notes := none, syncedAt := none })
          { moduleKey := moduleKey, todoId := todoId, completed := false,
            completedAt := none, notes := none, syncedAt := none } := by
      simp [toggleTodo, e2, TodoInput.toRecord]
    rw [e3]
    exact getTodo_saveTodo_self _ _

/-- C5 witness: the theorem applied at a concrete database where the record
is absent, with the absence hypothesis discharged by evaluation. -/
theorem toggleTodo_spec_witness :
    getTodo DB.empty "kits" "water" = none ∧
    ((toggleTodo DB.empty "T0" "kits" "water").2 = true ∧
      getTodo
          (toggleTodo (toggleTodo DB.empty "T0" "kits" "water").1 "T1" "kits" "water").1
          "kits" "water" =
        some { id := todoKey "kits" "water"
               moduleKey := "kits"
               todoId := "water"
               completed := false
               completedAt := none
               notes := none
               syncedAt := none }) := by
  refine ⟨by decide, ?_, ?_⟩
  · have h := (toggleTodo_spec DB.empty "T0" "T1" "kits" "water").1
    simpa using h
  · exact (toggleTodo_spec DB.empty "T0" "T1" "kits" "water").2.2 (by decide)

/-- C6: `updateTodoNote` preserves the todo's completion flag and completion
timestamp, overwrites only the note, and normalizes an empty-string note to
absent (no note field rather than an empty string). The operation itself is
modelled from the spec because its definition is missing from the snapshot. -/
theorem updateTodoNote_spec (db : DB) (moduleKey todoId note : String) :
    getTodo (updateTodoNote db moduleKey todoId note) moduleKey todoId =
      some { id := todoKey moduleKey todoId
             moduleKey := moduleKey
             todoId := todoId
             completed :=
               ((getTodo db moduleKey todoId).map (fun t => t.completed)).getD false
             completedAt := (getTodo db moduleKey todoId).bind (fun t => t.completedAt)
             notes := if note = "" then none else some note
             syncedAt := none } :=
  getTodo_saveTodo_self db _

/-- C8: after `toggleTodo` completes, the stored record has no sync
timestamp — toggling always re-dirties the record, so it is included in the
next `getUnsyncedTodos` result. -/
theorem toggleTodo_redirties (db : DB) (now moduleKey todoId : String) :
    ∃ t, getTodo (toggleTodo db now moduleKey todoId).1 moduleKey todoId = some t ∧
      t.syncedAt = none ∧
      t ∈ getUnsyncedTodos (toggleTodo db now moduleKey todoId).1 := by
  refine ⟨_, getTodo_saveTodo_self db _, rfl, ?_⟩
  rw [mem_getUnsyncedTodos]
  exact ⟨self_mem_storePut _ _ _, rfl⟩

/-- C2 counterexample: `markTableRowSynced` does not leave the row's
`updatedAt` unchanged — saving a row at time `T0` and marking it synced at
time `T1` leaves `updatedAt = "T1"`, not the previously stored `"T0"`,
because `markTableRowSynced` writes through `saveTableRow`, which stamps a
fresh `updatedAt`. -/
theorem markTableRowSynced_changes_updatedAt :
    ((getTableRow
        (markTableRowSynced
          (saveTableRow DB.empty "T0"
            { moduleKey := "m", tableId := "t", rowId := "r",
              data := [("c", "v")], syncedAt := none })
          "T1" "m" "t" "r")
        "m" "t" "r").map (fun r => r.updatedAt)) = some "T1" ∧
    ((getTableRow
        (saveTableRow DB.empty "T0"
          { moduleKey := "m", tableId := "t", rowId := "r",
            data := [("c", "v")], syncedAt := none })
        "m" "t" "r").map (fun r => r.updatedAt)) = some "T0" := by
  decide

/-- C2 amended: for every existing record, `markTodoSynced` changes only the
todo's sync timestamp (completion flag, completion timestamp and note are
exactly the values stored before), while `markTableRowSynced` sets the row's
sync timestamp and also refreshes `updatedAt` to the current time, leaving
the data map and identity fields exactly as stored before. -/
theorem mark_synced_field_effects (db : DB) (now : String) (hwf : db.WF) :
    (∀ mk tid t, getTodo db mk tid = some t →
      getTodo (markTodoSynced db now mk tid) mk tid =
        some { t with syncedAt := some now }) ∧
    (∀ mk tb rid r, getTableRow db mk tb rid = some r →
      getTableRow (markTableRowSynced db now mk tb rid) mk tb rid =
        some { r with updatedAt := now, syncedAt := some now }) :=
  ⟨fun mk tid _ ht => markTodoSynced_get_self hwf.1.2 now mk tid ht,
   fun mk tb rid _ hr => markTableRowSynced_get_self hwf.2.2 now mk tb rid hr⟩

/-- C2 witness: the amended theorem applied to a concrete one-todo,
one-row database, all hypotheses discharged by evaluation. -/
theorem mark_synced_field_effects_witness :
    getTodo
        (markTodoSynced
          ⟨[{ id := todoKey "m" "a", moduleKey := "m", todoId := "a",
              completed := true, completedAt := some "T0", notes := some "n",
              syncedAt := none }],
           [{ id := tableKey "m" "t" "r", moduleKey := "m", tableId := "t",
              rowId := "r", data := [("c", "v")], updatedAt := "T0",
              syncedAt := none }]⟩
          "T1" "m" "a")
        "m" "a" =
      some { id := todoKey "m" "a", moduleKey := "m", todoId := "a",
             completed := true, completedAt := some "T0", notes := some "n",
             syncedAt := some "T1" } ∧
    getTableRow
        (markTableRowSynced
          ⟨[{ id := todoKey "m" "a", moduleKey := "m", todoId := "a",
              completed := true, completedAt := some "T0", notes := some "n",
              syncedAt := none }],
           [{ id := tableKey "m" "t" "r", moduleKey := "m", tableId := "t",
              rowId := "r", data := [("c", "v")], updatedAt := "T0",
              syncedAt := none }]⟩
          "T1" "m" "t" "r")
        "m" "t" "r" =
      some { id := tableKey "m" "t" "r", moduleKey := "m", tableId := "t",
             rowId := "r", data := [("c", "v")], updatedAt := "T1",
             syncedAt := some "T1" } :=
  ⟨(mark_synced_field_effects _ "T1" (by decide)).1 "m" "a"
      { id := todoKey "m" "a", moduleKey := "m", todoId := "a",
        completed := true, completedAt := some "T0", notes := some "n",
        syncedAt := none } (by decide),
   (mark_synced_field_effects _ "T1" (by decide)).2 "m" "t" "r"
      { id := tableKey "m" "t" "r", moduleKey := "m", tableId := "t",
        rowId := "r", data := [("c", "v")], updatedAt := "T0",
        syncedAt := none } (by decide)⟩

/-- A string free of the composite-key separator character. -/
def sepFree (s : String) : Prop := '-' ∉ s.data

instance (s : String) : Decidable (sepFree s) := by
  unfold sepFree
  infer_instance

theorem append_dash_inj {as bs cs ds : List Char}
    (ha : '-' ∉ as) (hc : '-' ∉ cs)
    (h : as ++ '-' :: bs = cs ++ '-' :: ds) : as = cs ∧ bs = ds := by
  induction as generalizing cs with
  | nil =>
      cases cs with
      | nil => simpa using h
      | cons c cs' =>
          simp only [List.nil_append, List.cons_append, List.cons.injEq] at h
          exfalso
          apply hc
          rw [h.1]
          exact List.mem_cons_self _ _
  | cons a as' ih =>
      cases cs with
      | nil =>
          simp only [List.nil_append, List.cons_append, List.cons.injEq] at h
          exfalso
          apply ha
          rw [← h.1]
          exact List.mem_cons_self _ _
      | cons c cs' =>
          simp only [List.cons_append, List.cons.injEq] at h
          have ha' : '-' ∉ as' := fun hm => ha (List.mem_cons_of_mem _ hm)
          have hc' : '-' ∉ cs' := fun hm => hc (List.mem_cons_of_mem _ hm)
          obtain ⟨heq, hrest⟩ := ih ha' hc' h.2
          exact ⟨by rw [h.1, heq], hrest⟩

theorem todoKey_data (m t : String) :
    (todoKey m t).data = m.data ++ '-' :: t.data := by
  show (m ++ "-" ++ t).data = m.data ++ '-' :: t.data
  rw [String.data_append, String.data_append, List.append_assoc]
  rfl

theorem todoKey_inj {m1 t1 m2 t2 : String} (h1 : sepFree m1) (h2 : sepFree m2)
    (h : todoKey m1 t1 = todoKey m2 t2) : m1 = m2 ∧ t1 = t2 := by
  have hd := congrArg String.data h
  rw [todoKey_data, todoKey_data] at hd
  obtain ⟨hm, ht⟩ := append_dash_inj h1 h2 hd
  exact ⟨String.ext hm, String.ext ht⟩

theorem tableKey_eq_todoKey (m a r : String) :
    tableKey m a r = todoKey m (todoKey a r) := by
  show m ++ "-" ++ a ++ "-" ++ r = m ++ "-" ++ (a ++ "-" ++ r)
  simp [String.append_assoc]

theorem tableKey_inj {m1 a1 r1 m2 a2 r2 : String}
    (hm1 : sepFree m1) (ha1 : sepFree a1) (hm2 : sepFree m2) (ha2 : sepFree a2)
    (h : tableKey m1 a1 r1 = tableKey m2 a2 r2) :
    m1 = m2 ∧ a1 = a2 ∧ r1 = r2 := by
  rw [tableKey_eq_todoKey, tableKey_eq_todoKey] at h
  obtain ⟨hm, ht⟩ := todoKey_inj hm1 hm2 h
  obtain ⟨ha, hr⟩ := todoKey_inj ha1 ha2 ht
  exact ⟨hm, ha, hr⟩

/-- C3 counterexample: composite-key construction is not injective over
identities containing the separator — the distinct todo identities
`("a-b", "c")` and `("a", "b-c")` derive the same store key `"a-b-c"`, so a
save under the second identity overwrites the record stored under the first,
and `getTodo` for the first identity then returns the record written under
the other identity. -/
theorem composite_key_collision :
    todoKey "a-b" "c" = todoKey "a" "b-c" ∧
    (("a-b", "c") : String × String) ≠ ("a", "b-c") ∧
    (getTodo
        (saveTodo
          (saveTodo DB.empty
            { moduleKey := "a-b", todoId := "c", completed := true,
              completedAt := none, notes := none, syncedAt := none })
          { moduleKey := "a", todoId := "b-c", completed := false,
            completedAt := none, notes := none, syncedAt := none })
        "a-b" "c").map (fun t => (t.moduleKey, t.todoId, t.completed)) =
      some ("a", "b-c", false) := by
  decide

/-- C3 amended: composite-key construction is injective over identity tuples
whose leading components contain no separator character: for todos when both
module keys are separator-free, and for table rows when both module keys and
both table ids are separator-free; under the same condition, saving under
one identity leaves the record stored under any other identity unchanged. -/
theorem composite_key_injective_on_sepfree :
    (∀ m1 t1 m2 t2 : String, sepFree m1 → sepFree m2 →
      (m1, t1) ≠ (m2, t2) → todoKey m1 t1 ≠ todoKey m2 t2) ∧
    (∀ m1 a1 r1 m2 a2 r2 : String,
      sepFree m1 → sepFree a1 → sepFree m2 → sepFree a2 →
      (m1, a1, r1) ≠ (m2, a2, r2) → tableKey m1 a1 r1 ≠ tableKey m2 a2 r2) ∧
    (∀ (db : DB) (i : TodoInput) (mk tid : String),
      sepFree mk → sepFree i.moduleKey → (mk, tid) ≠ (i.moduleKey, i.todoId) →
      getTodo (saveTodo db i) mk tid = getTodo db mk tid) ∧
    (∀ (db : DB) (now : String) (i : TableRowInput) (mk tb rid : String),
      sepFree mk → sepFree tb → sepFree i.moduleKey → sepFree i.tableId →
      (mk, tb, rid) ≠ (i.moduleKey, i.tableId, i.rowId) →
      getTableRow (saveTableRow db now i) mk tb rid = getTableRow db mk tb rid) := by
  have key1 : ∀ m1 t1 m2 t2 : String, sepFree m1 → sepFree m2 →
      (m1, t1) ≠ (m2, t2) → todoKey m1 t1 ≠ todoKey m2 t2 := by
    intro m1 t1 m2 t2 h1 h2 hne hk
    obtain ⟨hm, ht⟩ := todoKey_inj h1 h2 hk
    exact hne (by rw [hm, ht])
  have key2 : ∀ m1 a1 r1 m2 a2 r2 : String,
      sepFree m1 → sepFree a1 → sepFree m2 → sepFree a2 →
      (m1, a1, r1) ≠ (m2, a2, r2) → tableKey m1 a1 r1 ≠ tableKey m2 a2 r2 := by
    intro m1 a1 r1 m2 a2 r2 hm1 ha1 hm2 ha2 hne hk
    obtain ⟨hm, ha, hr⟩ := tableKey_inj hm1 ha1 hm2 ha2 hk
    exact hne (by rw [hm, ha, hr])
  refine ⟨key1, key2, ?_, ?_⟩
  · intro db i mk tid hmk hi hne
    exact getTodo_saveTodo_ne db i mk tid (key1 mk tid i.moduleKey i.todoId hmk hi hne)
  · intro db now i mk tb rid hmk htb hi1 hi2 hne
    exact getTableRow_saveTableRow_ne db now i mk tb rid
      (key2 mk tb rid i.moduleKey i.tableId i.rowId hmk htb hi1 hi2 hne)

/-- C3 witness: the amended theorem applied at concrete separator-free
identities, all hypotheses discharged by evaluation. -/
theorem composite_key_injective_on_sepfree_witness :
    todoKey "kits" "water" ≠ todoKey "kits" "food" ∧
    getTodo
        (saveTodo DB.empty
          { moduleKey := "kits", todoId := "food", completed := true,
            completedAt := none, notes := none, syncedAt := none })
        "kits" "water" =
      getTodo DB.empty "kits" "water" :=
  ⟨composite_key_injective_on_sepfree.1 "kits" "water" "kits" "food"
      (by decide) (by decide) (by decide),
   composite_key_injective_on_sepfree.2.2.1 DB.empty
      { moduleKey := "kits", todoId := "food", completed := true,
        completedAt := none, notes := none, syncedAt := none }
      "kits" "water" (by decide) (by decide) (by decide)⟩

theorem batchUpdate_append (now : String) (db : DB) (l1 l2 : List ChecklistUpdate) :
    batchUpdateChecklistItems now db (l1 ++ l2) =
      batchUpdateChecklistItems now (batchUpdateChecklistItems now db l1) l2 := by
  induction l1 generalizing db with
  | nil => rfl
  | cons u us ih =>
      show batchUpdateChecklistItems now _ (us ++ l2) = _
      rw [ih]
      rfl

theorem batchUpdate_getTodo_untouched (now : String) (db : DB)
    (l : List ChecklistUpdate) (mk tid : String)
    (h : ∀ v ∈ l, todoKey v.moduleKey v.todoId ≠ todoKey mk tid) :
    getTodo (batchUpdateChecklistItems now db l) mk tid = getTodo db mk tid := by
  induction l generalizing db with
  | nil => rfl
  | cons u us ih =>
      show getTodo (batchUpdateChecklistItems now (saveTodo db _) us) mk tid = _
      rw [ih _ (fun v hv => h v (List.mem_cons_of_mem _ hv))]
      exact getTodo_saveTodo_ne db _ mk tid
        (Ne.symm (h u (List.mem_cons_self _ _)))

/-- C10 counterexample: the two distinct identities `("a-b", "c")` and
`("a", "b-c")` in a batch derive the same store key, so after the batch the
identity `("a-b", "c")` — whose update said `completed = true` — is stored
with `completed = false`: the claim's "each such todo's stored record has
the given completed flag" fails. -/
theorem batchUpdate_key_collision :
    (getTodo
        (batchUpdateChecklistItems "T0" DB.empty
          [{ moduleKey := "a-b", todoId := "c", completed := true },
           { moduleKey := "a", todoId := "b-c", completed := false }])
        "a-b" "c").map (fun t => t.completed) = some false := by
  decide

/-- C10 amended: `batchUpdateChecklistItems` performs a full-record
overwrite for every update whose derived store key does not reappear later
in the updates list: after the call that todo's stored record has the given
completed flag, a completion timestamp exactly when the flag is true, and no
note and no sync timestamp, regardless of what was stored before. -/
theorem batchUpdate_last_write (now : String) (db : DB)
    (pre post : List ChecklistUpdate) (u : ChecklistUpdate)
    (hlast : ∀ v ∈ post, todoKey v.moduleKey v.todoId ≠ todoKey u.moduleKey u.todoId) :
    getTodo (batchUpdateChecklistItems now db (pre ++ u :: post))
        u.moduleKey u.todoId =
      some { id := todoKey u.moduleKey u.todoId
             moduleKey := u.moduleKey
             todoId := u.todoId
             completed := u.completed
             completedAt := if u.completed then some now else none
             notes := none
             syncedAt := none } := by
  rw [batchUpdate_append]
  show getTodo (batchUpdateChecklistItems now
    (saveTodo (batchUpdateChecklistItems now db pre) _) post) u.moduleKey u.todoId = _
  rw [batchUpdate_getTodo_untouched now _ post u.moduleKey u.todoId hlast]
  exact getTodo_saveTodo_self _ _

/-- C10 witness: the amended theorem applied to a concrete batch over a
database that already stores a note and a sync timestamp for the identity,
the no-later-collision hypothesis discharged by evaluation. -/
theorem batchUpdate_last_write_witness :
    getTodo
        (batchUpdateChecklistItems "T1"
          ⟨[{ id := todoKey "m" "a", moduleKey := "m", todoId := "a",
              completed := false, completedAt := none, notes := some "keep?",
              syncedAt := some "T0" }], []⟩
          ([] ++ { moduleKey := "m", todoId := "a", completed := true } ::
            [{ moduleKey := "m", todoId := "b", completed := false }]))
        "m" "a" =
      some { id := todoKey "m" "a", moduleKey := "m", todoId := "a",
             completed := true, completedAt := some "T1", notes := none,
             syncedAt := none } :=
  batchUpdate_last_write "T1"
    ⟨[{ id := todoKey "m" "a", moduleKey := "m", todoId := "a",
        completed := false, completedAt := none, notes := some "keep?",
        syncedAt := some "T0" }], []⟩
    [] [{ moduleKey := "m", todoId := "b", completed := false }]
    { moduleKey := "m", todoId := "a", completed := true }
    (by decide)

/-- C1 counterexample: when a hub (workspace) context is missing, `syncAll`
does not return an empty error list — it returns exactly one descriptive
error, `"No hub selected"`; likewise `"Not authenticated"` when the identity
is missing. Only the not-configured case returns an empty list. -/
theorem syncAll_missing_hub_error_nonempty :
    (syncAll ⟨true, none, some "u"⟩ "T0" (fun _ => true) (fun _ => "e")
        (fun _ => true) (fun _ => "e") DB.empty).result.errors =
      ["No hub selected"] ∧
    (syncAll ⟨true, some "h", none⟩ "T0" (fun _ => true) (fun _ => "e")
        (fun _ => true) (fun _ => "e") DB.empty).result.errors =
      ["Not authenticated"] ∧
    (syncAll ⟨true, none, some "u"⟩ "T0" (fun _ => true) (fun _ => "e")
        (fun _ => true) (fun _ => "e") DB.empty).result.errors ≠ [] := by
  decide

/-- C1 amended: when any `syncAll` precondition fails (remote storage not
configured, no hub context, no authenticated identity), the call returns
zero synced counts for both kinds, leaves the local store untouched,
performs no record-level work (no unsynced-record fetches and no remote
upserts), and does not throw; the error list is empty exactly in the
not-configured case and holds one descriptive error in the other two. -/
theorem syncAll_precondition_zero_effect (env : SyncEnv) (now : String)
    (okT : Todo → Bool) (errT : Todo → String)
    (okR : TableRow → Bool) (errR : TableRow → String) (db : DB)
    (h : env.supabaseConfigured = false ∨ env.currentHubId = none ∨
      env.currentUser = none) :
    (syncAll env now okT errT okR errR db).db = db ∧
    (syncAll env now okT errT okR errR db).result.todosSynced = 0 ∧
    (syncAll env now okT errT okR errR db).result.tablesSynced = 0 ∧
    (syncAll env now okT errT okR errR db).remoteCalls = [] ∧
    (syncAll env now okT errT okR errR db).unsyncedFetches = 0 ∧
    (syncAll env now okT errT okR errR db).result.errors =
      (if env.supabaseConfigured = false then []
       else if env.currentHubId = none then ["No hub selected"]
       else ["Not authenticated"]) := by
  obtain ⟨cfg, hub, user⟩ := env
  cases cfg with
  | false => simp [syncAll]
  | true =>
      cases hub with
      | none => simp [syncAll]
      | some hubId =>
          cases user with
          | none => simp [syncAll]
          | some userId => simp at h

/-- C1 witness: the amended theorem applied at a concrete environment with
no hub selected, the precondition discharged by evaluation. -/
theorem syncAll_precondition_zero_effect_witness :
    (syncAll ⟨true, none, some "u"⟩ "T1" (fun _ => true) (fun _ => "boom")
        (fun _ => true) (fun _ => "boom")
        ⟨[{ id := todoKey "m" "a", moduleKey := "m", todoId := "a",
            completed := true, completedAt := some "T0", notes := none,
            syncedAt := none }], []⟩).db =
      ⟨[{ id := todoKey "m" "a", moduleKey := "m", todoId := "a",
          completed := true, completedAt := some "T0", notes := none,
          syncedAt := none }], []⟩ ∧
    (syncAll ⟨true, none, some "u"⟩ "T1" (fun _ => true) (fun _ => "boom")
        (fun _ => true) (fun _ => "boom")
        ⟨[{ id := todoKey "m" "a", moduleKey := "m", todoId := "a",
            completed := true, completedAt := some "T0", notes := none,
            syncedAt := none }], []⟩).result.todosSynced = 0 ∧
    (syncAll ⟨true, none, some "u"⟩ "T1" (fun _ => true) (fun _ => "boom")
        (fun _ => true) (fun _ => "boom")
        ⟨[{ id := todoKey "m" "a", moduleKey := "m", todoId := "a",
            completed := true, completedAt := some "T0", notes := none,
            syncedAt := none }], []⟩).remoteCalls = [] := by
  have h := syncAll_precondition_zero_effect ⟨true, none, some "u"⟩ "T1"
    (fun _ => true) (fun _ => "boom") (fun _ => true) (fun _ => "boom")
    ⟨[{ id := todoKey "m" "a", moduleKey := "m", todoId := "a",
        completed := true, completedAt := some "T0", notes := none,
        syncedAt := none }], []⟩ (by decide)
  exact ⟨h.1, h.2.1, h.2.2.2.1⟩

/-- C7: the claim that `getDB` never opens the database twice is right as a
specification but the code violates it — `dbInstance` is assigned only after
the `await openDB(...)` resolves, so two callers that both pass the null
check before either open resolves each start their own open. The schedule
A-check, B-check, A-resolve, B-resolve performs two opens and hands the two
callers two different connection instances, while the sequential schedule
A-check, A-resolve, B-check opens only once. -/
theorem getDB_concurrent_double_open :
    (runSchedule initGetDB [true, false, true, false]).opens = 2 ∧
    (runSchedule initGetDB [true, false, true, false]).a = CallerPC.done 0 ∧
    (runSchedule initGetDB [true, false, true, false]).b = CallerPC.done 1 ∧
    (runSchedule initGetDB [true, true, false]).opens = 1 ∧
    (runSchedule initGetDB [true, true, false]).a = CallerPC.done 0 ∧
    (runSchedule initGetDB [true, true, false]).b = CallerPC.done 0 := by
  decide

/-- C9: `saveTableRow` stores the caller-supplied sync timestamp unchanged;
consequently a cell edit through the table UI (`handleCellChange`), which
passes the existing record's fields through, leaves a previously-synced row
still marked synced, so the edited row is excluded from
`getUnsyncedTableRows` and is never pushed by a sync batch. -/
theorem cell_edit_stays_synced (db : DB) (now : String) (columns : List String)
    (mk tb rid col v s : String) (hwf : rowsWF db.tables)
    (hsync : (getTableRow db mk tb rid).bind (fun r => r.syncedAt) = some s) :
    (∀ (db2 : DB) (now2 : String) (i : TableRowInput),
      (getTableRow (saveTableRow db2 now2 i) i.moduleKey i.tableId i.rowId).bind
        (fun r => r.syncedAt) = i.syncedAt) ∧
    (getTableRow (handleCellChange db now columns mk tb rid col v) mk tb rid).bind
      (fun r => r.syncedAt) = some s ∧
    (∀ r ∈ getUnsyncedTableRows (handleCellChange db now columns mk tb rid col v),
      r.id ≠ tableKey mk tb rid) := by
  have hrow : ∃ row, getTableRow db mk tb rid = some row ∧ row.syncedAt = some s := by
    cases hr : getTableRow db mk tb rid with
    | none =>
        rw [hr] at hsync
        simp at hsync
    | some row =>
        rw [hr] at hsync
        exact ⟨row, rfl, hsync⟩
  obtain ⟨row, hr, hs⟩ := hrow
  have hmem := storeFind_mem hr
  have hid2 : row.id = tableKey row.moduleKey row.tableId row.rowId :=
    hwf.2 row hmem.1
  have hkey : tableKey mk tb rid = tableKey row.moduleKey row.tableId row.rowId := by
    rw [← hid2]
    exact hmem.2.symm
  have hout : ∀ r ∈ (handleCellChange db now columns mk tb rid col v).tables,
      r.id = tableKey mk tb rid → r.syncedAt = some s := by
    have hfromdb : ∀ r ∈ db.tables, r.id = tableKey mk tb rid →
        r.syncedAt = some s := by
      intro r hrm hreq
      have h1 : storeFind (fun u : TableRow => u.id) db.tables r.id = some r :=
        mem_storeFind hwf.1 hrm
      rw [hreq] at h1
      have : r = row := by
        have := h1.symm.trans hr
        simpa using this
      rw [this, hs]
    intro r hrm hreq
    simp only [handleCellChange, hr] at hrm
    by_cases hguard : (isInitialRow rid && columns.head? == some col) = true
    · rw [if_pos hguard] at hrm
      exact hfromdb r hrm hreq
    · rw [if_neg hguard] at hrm
      rcases mem_storePut hrm with h' | h'
      · exact hfromdb r h' hreq
      · rw [h']
        exact hs
  refine ⟨?_, ?_, ?_⟩
  · intro db2 now2 i
    rw [getTableRow_saveTableRow_self]
    rfl
  · simp only [handleCellChange, hr]
    by_cases hguard : (isInitialRow rid && columns.head? == some col) = true
    · rw [if_pos hguard, hr]
      simp [hs]
    · rw [if_neg hguard]
      rw [getTableRow_saveTableRow_eq db now _ mk tb rid hkey]
      simp [TableRowInput.toRecord, hs]
  · intro r hrm hreq
    have h1 := mem_getUnsyncedTableRows.mp hrm
    have h2 := hout r h1.1 hreq
    rw [h1.2] at h2
    exact Option.noConfusion h2

/-- C9 witness: the theorem applied at a concrete database holding one
synced row, hypotheses discharged by evaluation, and the conclusion
specialized to that row. -/
theorem cell_edit_stays_synced_witness :
    (getTableRow
        (handleCellChange
          ⟨[], [{ id := tableKey "m" "t" "r", moduleKey := "m", tableId := "t",
                  rowId := "r", data := [("c", "old")], updatedAt := "T0",
                  syncedAt := some "S0" }]⟩
          "T1" ["c"] "m" "t" "r" "c" "new")
        "m" "t" "r").bind (fun r => r.syncedAt) = some "S0" :=
  (cell_edit_stays_synced
    ⟨[], [{ id := tableKey "m" "t" "r", moduleKey := "m", tableId := "t",
            rowId := "r", data := [("c", "old")], updatedAt := "T0",
            syncedAt := some "S0" }]⟩
    "T1" ["c"] "m" "t" "r" "c" "new" "S0" (by decide) (by decide)).2.1

theorem syncTodosLoop_spec (okT : Todo → Bool) (errT : Todo → String)
    (hub user now : String) :
    ∀ (ts : List Todo) (db : DB),
      todosWF db.todos →
      (∀ t ∈ ts, getTodo db t.moduleKey t.todoId = some t) →
      (ts.map (fun t => t.id)).Nodup →
      (syncTodosLoop okT errT hub user now db ts).db.tables = db.tables ∧
      todosWF (syncTodosLoop okT errT hub user now db ts).db.todos ∧
      (∀ t ∈ ts,
        getTodo (syncTodosLoop okT errT hub user now db ts).db t.moduleKey t.todoId =
          some (if okT t then { t with syncedAt := some now } else t)) ∧
      (∀ k, (∀ t ∈ ts, k ≠ t.id) →
        findTodo (syncTodosLoop okT errT hub user now db ts).db.todos k =
          findTodo db.todos k) ∧
      (syncTodosLoop okT errT hub user now db ts).count = ts.countP okT ∧
      (syncTodosLoop okT errT hub user now db ts).errors =
        (ts.filter (fun t => !okT t)).map errT ∧
      (syncTodosLoop okT errT hub user now db ts).calls =
        ts.map (fun t => RemoteCall.upsertTodo hub user t.moduleKey t.todoId
          t.completed (coerceNotes t.notes)) := by
  intro ts
  induction ts with
  | nil =>
      intro db hwf _ _
      exact ⟨rfl, hwf, by simp, fun k _ => rfl, rfl, rfl, rfl⟩
  | cons t ts ih =>
      intro db hwf hget hnd
      have hgt : getTodo db t.moduleKey t.todoId = some t :=
        hget t (List.mem_cons_self _ _)
      have hmem := storeFind_mem hgt
      have hidt : t.id = todoKey t.moduleKey t.todoId := hmem.2
      simp only [List.map_cons, List.nodup_cons] at hnd
      by_cases hok : okT t = true
      · -- the upsert for t succeeds: t is marked synced, then the rest runs
        have hmark : markTodoSynced db now t.moduleKey t.todoId =
            saveTodo db
              { moduleKey := t.moduleKey, todoId := t.todoId,
                completed := t.completed, completedAt := t.completedAt,
                notes := t.notes, syncedAt := some now } := by
          simp only [markTodoSynced, hgt]
        have heq : syncTodosLoop okT errT hub user now db (t :: ts) =
            ⟨(syncTodosLoop okT errT hub user now
                (markTodoSynced db now t.moduleKey t.todoId) ts).db,
             (syncTodosLoop okT errT hub user now
                (markTodoSynced db now t.moduleKey t.todoId) ts).count + 1,
             (syncTodosLoop okT errT hub user now
                (markTodoSynced db now t.moduleKey t.todoId) ts).errors,
             RemoteCall.upsertTodo hub user t.moduleKey t.todoId t.completed
                (coerceNotes t.notes) ::
               (syncTodosLoop okT errT hub user now
                  (markTodoSynced db now t.moduleKey t.todoId) ts).calls⟩ := by
          simp only [syncTodosLoop, hok, if_true]
        have hwf' : todosWF (markTodoSynced db now t.moduleKey t.todoId).todos := by
          rw [hmark]
          exact todosWF_saveTodo hwf _
        have hget' : ∀ u ∈ ts,
            getTodo (markTodoSynced db now t.moduleKey t.todoId)
              u.moduleKey u.todoId = some u := by
          intro u hu
          have hgu := hget u (List.mem_cons_of_mem _ hu)
          have hidu : u.id = todoKey u.moduleKey u.todoId := (storeFind_mem hgu).2
          have hne : u.id ≠ t.id := fun hcontra => by
            apply hnd.1
            rw [← hcontra]
            exact List.mem_map_of_mem _ hu
          rw [hmark, getTodo_saveTodo_ne db _ u.moduleKey u.todoId]
          · exact hgu
          · show todoKey u.moduleKey u.todoId ≠ todoKey t.moduleKey t.todoId
            rw [← hidu, ← hidt]
            exact hne
        obtain ⟨ih1, ih2, ih3, ih4, ih5, ih6, ih7⟩ :=
          ih (markTodoSynced db now t.moduleKey t.todoId) hwf' hget' hnd.2
        have htables : (markTodoSynced db now t.moduleKey t.todoId).tables =
            db.tables := by
          rw [hmark]
          rfl
        refine ⟨?_, ?_, ?_, ?_, ?_, ?_, ?_⟩
        · rw [heq]
          exact ih1.trans htables
        · rw [heq]
          exact ih2
        · intro u hu
          rcases List.mem_cons.mp hu with h | h
          · subst h
            rw [heq]
            show getTodo _ u.moduleKey u.todoId = _
            have hframe := ih4 u.id (fun w hw => fun hcontra => by
              apply hnd.1
              rw [hcontra]
              exact List.mem_map_of_mem _ hw)
            have : getTodo (syncTodosLoop okT errT hub user now
                (markTodoSynced db now u.moduleKey u.todoId) ts).db
                u.moduleKey u.todoId =
                getTodo (markTodoSynced db now u.moduleKey u.todoId)
                  u.moduleKey u.todoId := by
              show findTodo _ (todoKey u.moduleKey u.todoId) =
                findTodo _ (todoKey u.moduleKey u.todoId)
              rw [← hidt]
              exact hframe
            rw [this, hmark, getTodo_saveTodo_self]
            simp [TodoInput.toRecord, ← hidt, hok]
          · rw [heq]
            exact ih3 u h
        · intro k hk
          rw [heq]
          have h1 := ih4 k (fun w hw => hk w (List.mem_cons_of_mem _ hw))
          rw [h1, hmark]
          show storeFind _ (storePut _ db.todos _) k = storeFind _ db.todos k
          apply storeFind_storePut_ne
          show k ≠ todoKey t.moduleKey t.todoId
          rw [← hidt]
          exact hk t (List.mem_cons_self _ _)
        · rw [heq]
          simp [ih5, List.countP_cons, hok]
        · rw [heq]
          simp [ih6, List.filter_cons, hok]
        · rw [heq]
          simp [ih7, List.map_cons]
      · -- the upsert for t fails: the error is collected and the rest runs
        have hok' : okT t = false := by
          cases h : okT t with
          | false => rfl
          | true => exact absurd h hok
        have heq : syncTodosLoop okT errT hub user now db (t :: ts) =
            ⟨(syncTodosLoop okT errT hub user now db ts).db,
             (syncTodosLoop okT errT hub user now db ts).count,
             errT t :: (syncTodosLoop okT errT hub user now db ts).errors,
             RemoteCall.upsertTodo hub user t.moduleKey t.todoId t.completed
                (coerceNotes t.notes) ::
               (syncTodosLoop okT errT hub user now db ts).calls⟩ := by
          simp only [syncTodosLoop, hok', if_false, Bool.false_eq_true]
        obtain ⟨ih1, ih2, ih3, ih4, ih5, ih6, ih7⟩ :=
          ih db hwf (fun u hu => hget u (List.mem_cons_of_mem _ hu)) hnd.2
        refine ⟨?_, ?_, ?_, ?_, ?_, ?_, ?_⟩
        · rw [heq]
          exact ih1
        · rw [heq]
          exact ih2
        · intro u hu
          rcases List.mem_cons.mp hu with h | h
          · subst h
            rw [heq]
            have hframe := ih4 u.id (fun w hw => fun hcontra => by
              apply hnd.1
              rw [hcontra]
              exact List.mem_map_of_mem _ hw)
            have : getTodo (syncTodosLoop okT errT hub user now db ts).db
                u.moduleKey u.todoId = getTodo db u.moduleKey u.todoId := by
              show findTodo _ (todoKey u.moduleKey u.todoId) =
                findTodo _ (todoKey u.moduleKey u.todoId)
              rw [← hidt]
              exact hframe
            rw [this, hgt]
            simp [hok']
          · rw [heq]
            exact ih3 u h
        · intro k hk
          rw [heq]
          exact ih4 k (fun w hw => hk w (List.mem_cons_of_mem _ hw))
        · rw [heq]
          simp [ih5, List.countP_cons, hok']
        · rw [heq]
          simp [ih6, List.filter_cons, hok']
        · rw [heq]
          simp [ih7, List.map_cons]

theorem syncRowsLoop_spec (okR : TableRow → Bool) (errR : TableRow → String)
    (hub user now : String) :
    ∀ (rs : List TableRow) (db : DB),
      rowsWF db.tables →
      (∀ r ∈ rs, getTableRow db r.moduleKey r.tableId r.rowId = some r) →
      (rs.map (fun r => r.id)).Nodup →
      (syncRowsLoop okR errR hub user now db rs).db.todos = db.todos ∧
      rowsWF (syncRowsLoop okR errR hub user now db rs).db.tables ∧
      (∀ r ∈ rs,
        getTableRow (syncRowsLoop okR errR hub user now db rs).db
            r.moduleKey r.tableId r.rowId =
          some (if okR r then { r with updatedAt := now, syncedAt := some now }
                else r)) ∧
      (∀ k, (∀ r ∈ rs, k ≠ r.id) →
        findRow (syncRowsLoop okR errR hub user now db rs).db.tables k =
          findRow db.tables k) ∧
      (syncRowsLoop okR errR hub user now db rs).count = rs.countP okR ∧
      (syncRowsLoop okR errR hub user now db rs).errors =
        (rs.filter (fun r => !okR r)).map errR ∧
      (syncRowsLoop okR errR hub user now db rs).calls =
        rs.map (fun r => RemoteCall.upsertTableRow hub user r.moduleKey
          r.tableId r.rowId r.data) := by
  intro rs
  induction rs with
  | nil =>
      intro db hwf _ _
      exact ⟨rfl, hwf, by simp, fun k _ => rfl, rfl, rfl, rfl⟩
  | cons r rs ih =>
      intro db hwf hget hnd
      have hgt : getTableRow db r.moduleKey r.tableId r.rowId = some r :=
        hget r (List.mem_cons_self _ _)
      have hmem := storeFind_mem hgt
      have hidr : r.id = tableKey r.moduleKey r.tableId r.rowId := hmem.2
      simp only [List.map_cons, List.nodup_cons] at hnd
      by_cases hok : okR r = true
      · have hmark : markTableRowSynced db now r.moduleKey r.tableId r.rowId =
            saveTableRow db now
              { moduleKey := r.moduleKey, tableId := r.tableId,
                rowId := r.rowId, data := r.data, syncedAt := some now } := by
          simp only [markTableRowSynced, hgt]
        have heq : syncRowsLoop okR errR hub user now db (r :: rs) =
            ⟨(syncRowsLoop okR errR hub user now
                (markTableRowSynced db now r.moduleKey r.tableId r.rowId) rs).db,
             (syncRowsLoop okR errR hub user now
                (markTableRowSynced db now r.moduleKey r.tableId r.rowId) rs).count + 1,
             (syncRowsLoop okR errR hub user now
                (markTableRowSynced db now r.moduleKey r.tableId r.rowId) rs).errors,
             RemoteCall.upsertTableRow hub user r.moduleKey r.tableId r.rowId r.data ::
               (syncRowsLoop okR errR hub user now
                  (markTableRowSynced db now r.moduleKey r.tableId r.rowId) rs).calls⟩ := by
          simp only [syncRowsLoop, hok, if_true]
        have hwf' : rowsWF
            (markTableRowSynced db now r.moduleKey r.tableId r.rowId).tables := by
          rw [hmark]
          exact rowsWF_saveTableRow hwf now _
        have hget' : ∀ u ∈ rs,
            getTableRow (markTableRowSynced db now r.moduleKey r.tableId r.rowId)
              u.moduleKey u.tableId u.rowId = some u := by
          intro u hu
          have hgu := hget u (List.mem_cons_of_mem _ hu)
          have hidu : u.id = tableKey u.moduleKey u.tableId u.rowId :=
            (storeFind_mem hgu).2
          have hne : u.id ≠ r.id := fun hcontra => by
            apply hnd.1
            rw [← hcontra]
            exact List.mem_map_of_mem _ hu
          rw [hmark, getTableRow_saveTableRow_ne db now _ u.moduleKey u.tableId u.rowId]
          · exact hgu
          · show tableKey u.moduleKey u.tableId u.rowId ≠
              tableKey r.moduleKey r.tableId r.rowId
            rw [← hidu, ← hidr]
            exact hne
        obtain ⟨ih1, ih2, ih3, ih4, ih5, ih6, ih7⟩ :=
          ih (markTableRowSynced db now r.moduleKey r.tableId r.rowId) hwf' hget' hnd.2
        have htodos : (markTableRowSynced db now r.moduleKey r.tableId r.rowId).todos =
            db.todos := by
          rw [hmark]
          rfl
        refine ⟨?_, ?_, ?_, ?_, ?_, ?_, ?_⟩
        · rw [heq]
          exact ih1.trans htodos
        · rw [heq]
          exact ih2
        · intro u hu
          rcases List.mem_cons.mp hu with h | h
          · subst h
            rw [heq]
            have hframe := ih4 u.id (fun w hw => fun hcontra => by
              apply hnd.1
              rw [hcontra]
              exact List.mem_map_of_mem _ hw)
            have : getTableRow (syncRowsLoop okR errR hub user now
                (markTableRowSynced db now u.moduleKey u.tableId u.rowId) rs).db
                u.moduleKey u.tableId u.rowId =
                getTableRow (markTableRowSynced db now u.moduleKey u.tableId u.rowId)
                  u.moduleKey u.tableId u.rowId := by
              show findRow _ (tableKey u.moduleKey u.tableId u.rowId) =
                findRow _ (tableKey u.moduleKey u.tableId u.rowId)
              rw [← hidr]
              exact hframe
            rw [this, hmark, getTableRow_saveTableRow_self]
            simp [TableRowInput.toRecord, ← hidr, hok]
          · rw [heq]
            exact ih3 u h
        · intro k hk
          rw [heq]
          have h1 := ih4 k (fun w hw => hk w (List.mem_cons_of_mem _ hw))
          rw [h1, hmark]
          show storeFind _ (storePut _ db.tables _) k = storeFind _ db.tables k
          apply storeFind_storePut_ne
          show k ≠ tableKey r.moduleKey r.tableId r.rowId
          rw [← hidr]
          exact hk r (List.mem_cons_self _ _)
        · rw [heq]
          simp [ih5, List.countP_cons, hok]
        · rw [heq]
          simp [ih6, List.filter_cons, hok]
        · rw [heq]
          simp [ih7, List.map_cons]
      · have hok' : okR r = false := by
          cases h : okR r with
          | false => rfl
          | true => exact absurd h hok
        have heq : syncRowsLoop okR errR hub user now db (r :: rs) =
            ⟨(syncRowsLoop okR errR hub user now db rs).db,
             (syncRowsLoop okR errR hub user now db rs).count,
             errR r :: (syncRowsLoop okR errR hub user now db rs).errors,
             RemoteCall.upsertTableRow hub user r.moduleKey r.tableId r.rowId r.data ::
               (syncRowsLoop okR errR hub user now db rs).calls⟩ := by
          simp only [syncRowsLoop, hok', if_false, Bool.false_eq_true]
        obtain ⟨ih1, ih2, ih3, ih4, ih5, ih6, ih7⟩ :=
          ih db hwf (fun u hu => hget u (List.mem_cons_of_mem _ hu)) hnd.2
        refine ⟨?_, ?_, ?_, ?_, ?_, ?_, ?_⟩
        · rw [heq]
          exact ih1
        · rw [heq]
          exact ih2
        · intro u hu
          rcases List.mem_cons.mp hu with h | h
          · subst h
            rw [heq]
            have hframe := ih4 u.id (fun w hw => fun hcontra => by
              apply hnd.1
              rw [hcontra]
              exact List.mem_map_of_mem _ hw)
            have : getTableRow (syncRowsLoop okR errR hub user now db rs).db
                u.moduleKey u.tableId u.rowId =
                getTableRow db u.moduleKey u.tableId u.rowId := by
              show findRow _ (tableKey u.moduleKey u.tableId u.rowId) =
                findRow _ (tableKey u.moduleKey u.tableId u.rowId)
              rw [← hidr]
              exact hframe
            rw [this, hgt]
            simp [hok']
          · rw [heq]
            exact ih3 u h
        · intro k hk
          rw [heq]
          exact ih4 k (fun w hw => hk w (List.mem_cons_of_mem _ hw))
        · rw [heq]
          simp [ih5, List.countP_cons, hok']
        · rw [heq]
          simp [ih6, List.filter_cons, hok']
        · rw [heq]
          simp [ih7, List.map_cons]

/-- C4: in one sync batch over the unsynced records fetched at its start,
each record is processed independently: a record is marked synced exactly
when its own remote upsert succeeded (a failed record's stored state is left
untouched, hence still unsynced); a remote upsert is attempted for every
fetched record regardless of other records' failures (no early abort); each
failed record's error is collected in order; and the batch returns the
per-kind counts of synced records together with the accumulated errors. -/
theorem syncAll_per_record (env : SyncEnv) (now : String)
    (okT : Todo → Bool) (errT : Todo → String)
    (okR : TableRow → Bool) (errR : TableRow → String) (db : DB)
    (hub user : String)
    (hcfg : env.supabaseConfigured = true)
    (hhub : env.currentHubId = some hub)
    (huser : env.currentUser = some user)
    (hwf : db.WF) :
    (∀ t ∈ getUnsyncedTodos db,
      getTodo (syncAll env now okT errT okR errR db).db t.moduleKey t.todoId =
        some (if okT t then { t with syncedAt := some now } else t)) ∧
    (∀ r ∈ getUnsyncedTableRows db,
      getTableRow (syncAll env now okT errT okR errR db).db
          r.moduleKey r.tableId r.rowId =
        some (if okR r then { r with updatedAt := now, syncedAt := some now }
              else r)) ∧
    (syncAll env now okT errT okR errR db).result.todosSynced =
      (getUnsyncedTodos db).countP okT ∧
    (syncAll env now okT errT okR errR db).result.tablesSynced =
      (getUnsyncedTableRows db).countP okR ∧
    (syncAll env now okT errT okR errR db).result.errors =
      ((getUnsyncedTodos db).filter (fun t => !okT t)).map errT ++
        ((getUnsyncedTableRows db).filter (fun r => !okR r)).map errR ∧
    (syncAll env now okT errT okR errR db).remoteCalls =
      (getUnsyncedTodos db).map (fun t => RemoteCall.upsertTodo hub user
          t.moduleKey t.todoId t.completed (coerceNotes t.notes)) ++
        (getUnsyncedTableRows db).map (fun r => RemoteCall.upsertTableRow hub user
          r.moduleKey r.tableId r.rowId r.data) := by
  have hts : ∀ t ∈ getUnsyncedTodos db,
      getTodo db t.moduleKey t.todoId = some t := by
    intro t ht
    have hm := (mem_getUnsyncedTodos.mp ht).1
    have h1 := mem_storeFind hwf.1.1 hm
    have h2 := hwf.1.2 t hm
    show findTodo db.todos (todoKey t.moduleKey t.todoId) = some t
    rw [← h2]
    exact h1
  have hrs : ∀ r ∈ getUnsyncedTableRows db,
      getTableRow db r.moduleKey r.tableId r.rowId = some r := by
    intro r hr
    have hm := (mem_getUnsyncedTableRows.mp hr).1
    have h1 := mem_storeFind hwf.2.1 hm
    have h2 := hwf.2.2 r hm
    show findRow db.tables (tableKey r.moduleKey r.tableId r.rowId) = some r
    rw [← h2]
    exact h1
  have hndt : ((getUnsyncedTodos db).map (fun t => t.id)).Nodup := by
    have hsub : List.Sublist ((getUnsyncedTodos db).map (fun t => t.id))
        (db.todos.map (fun t => t.id)) :=
      (List.filter_sublist db.todos).map (fun t => t.id)
    exact hwf.1.1.sublist hsub
  have hndr : ((getUnsyncedTableRows db).map (fun r => r.id)).Nodup := by
    have hsub : List.Sublist ((getUnsyncedTableRows db).map (fun r => r.id))
        (db.tables.map (fun r => r.id)) :=
      (List.filter_sublist db.tables).map (fun r => r.id)
    exact hwf.2.1.sublist hsub
  obtain ⟨t1, t2, t3, t4, t5, t6, t7⟩ :=
    syncTodosLoop_spec okT errT hub user now (getUnsyncedTodos db) db
      hwf.1 hts hndt
  have hdb1tables :
      (syncTodosLoop okT errT hub user now db (getUnsyncedTodos db)).db.tables =
        db.tables := t1
  have hfetch2 : getUnsyncedTableRows
      (syncTodosLoop okT errT hub user now db (getUnsyncedTodos db)).db =
      getUnsyncedTableRows db := by
    show (syncTodosLoop okT errT hub user now db (getUnsyncedTodos db)).db.tables.filter _ =
      db.tables.filter _
    rw [hdb1tables]
  have hwf2 : rowsWF
      (syncTodosLoop okT errT hub user now db (getUnsyncedTodos db)).db.tables := by
    rw [hdb1tables]
    exact hwf.2
  have hrs2 : ∀ r ∈ getUnsyncedTableRows db,
      getTableRow (syncTodosLoop okT errT hub user now db (getUnsyncedTodos db)).db
        r.moduleKey r.tableId r.rowId = some r := by
    intro r hr
    show findRow (syncTodosLoop okT errT hub user now db (getUnsyncedTodos db)).db.tables
      (tableKey r.moduleKey r.tableId r.rowId) = some r
    rw [hdb1tables]
    exact hrs r hr
  obtain ⟨r1, r2, r3, r4, r5, r6, r7⟩ :=
    syncRowsLoop_spec okR errR hub user now (getUnsyncedTableRows db)
      (syncTodosLoop okT errT hub user now db (getUnsyncedTodos db)).db
      hwf2 hrs2 hndr
  have hsync : syncAll env now okT errT okR errR db =
      ⟨(syncRowsLoop okR errR hub user now
          (syncTodosLoop okT errT hub user now db (getUnsyncedTodos db)).db
          (getUnsyncedTableRows
            (syncTodosLoop okT errT hub user now db (getUnsyncedTodos db)).db)).db,
       ⟨(syncTodosLoop okT errT hub user now db (getUnsyncedTodos db)).count,
        (syncRowsLoop okR errR hub user now
          (syncTodosLoop okT errT hub user now db (getUnsyncedTodos db)).db
          (getUnsyncedTableRows
            (syncTodosLoop okT errT hub user now db (getUnsyncedTodos db)).db)).count,
        (syncTodosLoop okT errT hub user now db (getUnsyncedTodos db)).errors ++
          (syncRowsLoop okR errR hub user now
            (syncTodosLoop okT errT hub user now db (getUnsyncedTodos db)).db
            (getUnsyncedTableRows
              (syncTodosLoop okT errT hub user now db (getUnsyncedTodos db)).db)).errors⟩,
       (syncTodosLoop okT errT hub user now db (getUnsyncedTodos db)).calls ++
         (syncRowsLoop okR errR hub user now
           (syncTodosLoop okT errT hub user now db (getUnsyncedTodos db)).db
           (getUnsyncedTableRows
             (syncTodosLoop okT errT hub user now db (getUnsyncedTodos db)).db)).calls,
       2⟩ := by
    simp only [syncAll, hcfg, hhub, huser, Bool.not_true, Bool.false_eq_true,
      if_false]
  rw [hfetch2] at hsync
  refine ⟨?_, ?_, ?_, ?_, ?_, ?_⟩
  · intro t ht
    rw [hsync]
    show findTodo _ (todoKey t.moduleKey t.todoId) = _
    have : (syncRowsLoop okR errR hub user now
        (syncTodosLoop okT errT hub user now db (getUnsyncedTodos db)).db
        (getUnsyncedTableRows db)).db.todos =
        (syncTodosLoop okT errT hub user now db (getUnsyncedTodos db)).db.todos := r1
    rw [this]
    exact t3 t ht
  · intro r hr
    rw [hsync]
    exact r3 r hr
  · rw [hsync]
    exact t5
  · rw [hsync]
    exact r5
  · rw [hsync]
    show (syncTodosLoop okT errT hub user now db (getUnsyncedTodos db)).errors ++ _ = _
    rw [t6, r6]
  · rw [hsync]
    show (syncTodosLoop okT errT hub user now db (getUnsyncedTodos db)).calls ++ _ = _
    rw [t7, r7]

/-- C4 witness: the theorem applied to a concrete batch with two unsynced
todos — one whose upsert succeeds and one whose upsert fails — and one
unsynced row, all hypotheses discharged by evaluation. -/
theorem syncAll_per_record_witness :
    getTodo (syncAll ⟨true, some "hub", some "u"⟩ "T1"
        (fun t => t.todoId == "a") (fun _ => "boom") (fun _ => true) (fun _ => "x")
        ⟨[{ id := todoKey "m" "a", moduleKey := "m", todoId := "a",
            completed := true, completedAt := some "C0", notes := some "n",
            syncedAt := none },
          { id := todoKey "m" "b", moduleKey := "m", todoId := "b",
            completed := false, completedAt := none, notes := none,
            syncedAt := none }],
         [{ id := tableKey "m" "t" "r", moduleKey := "m", tableId := "t",
            rowId := "r", data := [("c", "v")], updatedAt := "T0",
            syncedAt := none }]⟩).db "m" "a" =
      some { id := todoKey "m" "a", moduleKey := "m", todoId := "a",
             completed := true, completedAt := some "C0", notes := some "n",
             syncedAt := some "T1" } ∧
    getTodo (syncAll ⟨true, some "hub", some "u"⟩ "T1"
        (fun t => t.todoId == "a") (fun _ => "boom") (fun _ => true) (fun _ => "x")
        ⟨[{ id := todoKey "m" "a", moduleKey := "m", todoId := "a",
            completed := true, completedAt := some "C0", notes := some "n",
            syncedAt := none },
          { id := todoKey "m" "b", moduleKey := "m", todoId := "b",
            completed := false, completedAt := none, notes := none,
            syncedAt := none }],
         [{ id := tableKey "m" "t" "r", moduleKey := "m", tableId := "t",
            rowId := "r", data := [("c", "v")], updatedAt := "T0",
            syncedAt := none }]⟩).db "m" "b" =
      some { id := todoKey "m" "b", moduleKey := "m", todoId := "b",
             completed := false, completedAt := none, notes := none,
             syncedAt := none } ∧
    (syncAll ⟨true, some "hub", some "u"⟩ "T1"
        (fun t => t.todoId == "a") (fun _ => "boom") (fun _ => true) (fun _ => "x")
        ⟨[{ id := todoKey "m" "a", moduleKey := "m", todoId := "a",
            completed := true, completedAt := some "C0", notes := some "n",
            syncedAt := none },
          { id := todoKey "m" "b", moduleKey := "m", todoId := "b",
            completed := false, completedAt := none, notes := none,
            syncedAt := none }],
         [{ id := tableKey "m" "t" "r", moduleKey := "m", tableId := "t",
            rowId := "r", data := [("c", "v")], updatedAt := "T0",
            syncedAt := none }]⟩).result.todosSynced = 1 ∧
    (syncAll ⟨true, some "hub", some "u"⟩ "T1"
        (fun t => t.todoId == "a") (fun _ => "boom") (fun _ => true) (fun _ => "x")
        ⟨[{ id := todoKey "m" "a", moduleKey := "m", todoId := "a",
            completed := true, completedAt := some "C0", notes := some "n",
            syncedAt := none },
          { id := todoKey "m" "b", moduleKey := "m", todoId := "b",
            completed := false, completedAt := none, notes := none,
            syncedAt := none }],
         [{ id := tableKey "m" "t" "r", moduleKey := "m", tableId := "t",
            rowId := "r", data := [("c", "v")], updatedAt := "T0",
            syncedAt := none }]⟩).result.tablesSynced = 1 ∧
    (syncAll ⟨true, some "hub", some "u"⟩ "T1"
        (fun t => t.todoId == "a") (fun _ => "boom") (fun _ => true) (fun _ => "x")
        ⟨[{ id := todoKey "m" "a", moduleKey := "m", todoId := "a",
            completed := true, completedAt := some "C0", notes := some "n",
            syncedAt := none },
          { id := todoKey "m" "b", moduleKey := "m", todoId := "b",
            completed := false, completedAt := none, notes := none,
            syncedAt := none }],
         [{ id := tableKey "m" "t" "r", moduleKey := "m", tableId := "t",
            rowId := "r", data := [("c", "v")], updatedAt := "T0",
            syncedAt := none }]⟩).result.errors = ["boom"] := by
  have h := syncAll_per_record ⟨true, some "hub", some "u"⟩ "T1"
    (fun t => t.todoId == "a") (fun _ => "boom") (fun _ => true) (fun _ => "x")
    ⟨[{ id := todoKey "m" "a", moduleKey := "m", todoId := "a",
        completed := true, completedAt := some "C0", notes := some "n",
        syncedAt := none },
      { id := todoKey "m" "b", moduleKey := "m", todoId := "b",
        completed := false, completedAt := none, notes := none,
        syncedAt := none }],
     [{ id := tableKey "m" "t" "r", moduleKey := "m", tableId := "t",
        rowId := "r", data := [("c", "v")], updatedAt := "T0",
        syncedAt := none }]⟩ "hub" "u" rfl rfl rfl (by decide)
  refine ⟨?_, ?_, ?_, ?_, ?_⟩
  · have h1 := h.1
      { id := todoKey "m" "a", moduleKey := "m", todoId := "a",
        completed := true, completedAt := some "C0", notes := some "n",
        syncedAt := none } (by decide)
    simpa using h1
  · have h1 := h.1
      { id := todoKey "m" "b", moduleKey := "m", todoId := "b",
        completed := false, completedAt := none, notes := none,
        syncedAt := none } (by decide)
    simpa using h1
  · have h1 := h.2.2.1
    simpa using h1
  · have h1 := h.2.2.2.1
    simpa using h1
  · have h1 := h.2.2.2.2.1
    simpa using h1

end Resilience
